import Mathlib

/-!
Verification development for the tide-whisperer data service (Go, package
main).  The definitions below are a shallow embedding of the request
pipeline: the query builder `generateMongoQuery`, the authorization check
`userCanViewData` (together with the surrounding token condition of the
`GET /:userID` handler), the error writer `jsonError`, the streaming
result writer `processResults`, and the handler itself.

Modelling conventions:
- Go `bson.M` documents are association lists `List (String × BVal)`;
  clause presence is stated through `List.lookup`.
- `net/http` response-writer semantics: the first `Write` commits the
  response with the current status (200 by default); a `WriteHeader`
  after the response is committed has no effect on the transmitted
  status, and header mutation after commit has no effect on the wire.
- `time.Parse(time.RFC3339Nano, s)` / `Format(time.RFC3339Nano)` are
  modelled by a caller-supplied pair `parse : String → Option T`,
  `format : T → String`; the claims under verification depend only on
  the data flow through these functions, not on calendar arithmetic.
- external collaborators (shoreline token check, gatekeeper permission
  lookup, seagull private-pair lookup, the mongo cursor) are modelled as
  request-scoped inputs, and the handler records which of them it
  invoked in an effect trace.
-/

/-- BSON values as used by the query builder: strings, booleans, integers,
string arrays (the comma-separated type lists) and nested documents. -/
inductive BVal where
  | vStr : String → BVal
  | vBool : Bool → BVal
  | vInt : Int → BVal
  | vArr : List String → BVal
  | vDoc : List (String × BVal) → BVal

/-- A `bson.M` document: an association list from field name to value. -/
abbrev BsonM := List (String × BVal)

/-- A device-data record (`map[string]interface{}` in the source): an
association list from field name to an opaque value. -/
abbrev deviceData := List (String × BVal)

/-- Models Go `strings.Split(s, ",")`: substrings between commas, empty
tokens preserved; the empty string yields the one-element list `[""]`. -/
def goSplitComma (s : String) : List String :=
  (s.data.splitOn ',').map String.mk

/-- Models the two identical date blocks of `generateMongoQuery`
(source lines 82-97): an empty date string passes through unchanged, a
non-empty one must parse (`time.Parse(time.RFC3339Nano, ·)`) and is
re-serialized with `Format(time.RFC3339Nano)`; a parse failure aborts. -/
def normalizeDate {T : Type} (parse : String → Option T) (format : T → String)
    (s : String) : Except String String :=
  if s != "" then
    match parse s with
    | none => Except.error s
    | some d => Except.ok (format d)
  else Except.ok s

/-- The unconditional part of the query built by `generateMongoQuery`
(source lines 99-101): group id, active flag, schema-version range. -/
def baseQuery (groupId : String) (minSchemaVersion maxSchemaVersion : Int) : BsonM :=
  [("_groupId", BVal.vStr groupId),
   ("_active", BVal.vBool true),
   ("_schemaVersion", BVal.vDoc [("$gte", BVal.vInt minSchemaVersion),
                                 ("$lte", BVal.vInt maxSchemaVersion)])]

/-- Embedding of `generateMongoQuery` (source lines 74-121). -/
def generateMongoQuery {T : Type} (parse : String → Option T) (format : T → String)
    (groupId : String) (minSchemaVersion maxSchemaVersion : Int)
    (startDateString endDateString objType objSubType : String) : Except String BsonM :=
  let objTypes := goSplitComma objType
  let objSubTypes := goSplitComma objSubType
  match normalizeDate parse format startDateString with
  | Except.error e => Except.error e
  | Except.ok startDateString =>
  match normalizeDate parse format endDateString with
  | Except.error e => Except.error e
  | Except.ok endDateString =>
    let groupDataQuery : BsonM := baseQuery groupId minSchemaVersion maxSchemaVersion
    let groupDataQuery := if objTypes.length > 0 && (objTypes.headD "" != "") then
        groupDataQuery ++ [("type", BVal.vDoc [("$in", BVal.vArr objTypes)])]
      else groupDataQuery
    let groupDataQuery := if objSubTypes.length > 0 && (objSubTypes.headD "" != "") then
        groupDataQuery ++ [("subType", BVal.vDoc [("$in", BVal.vArr objSubTypes)])]
      else groupDataQuery
    let groupDataQuery := if startDateString != "" && endDateString != "" then
        groupDataQuery ++ [("time", BVal.vDoc [("$gte", BVal.vStr startDateString),
                                               ("$lte", BVal.vStr endDateString)])]
      else if startDateString != "" then
        groupDataQuery ++ [("time", BVal.vDoc [("$gte", BVal.vStr startDateString)])]
      else if endDateString != "" then
        groupDataQuery ++ [("time", BVal.vDoc [("$lte", BVal.vStr endDateString)])]
      else groupDataQuery
    Except.ok groupDataQuery

/-- `shoreline.TokenData`: the validated session-token descriptor. -/
structure TokenData where
  UserID : String
  IsServer : Bool
deriving DecidableEq

/-- A gatekeeper `PermissionSet`, abstracted to the list of permission
names that are present with a non-null marker. -/
abbrev Permissions := List String

/-- External calls the handler can make, recorded as an effect trace. -/
inductive Effect where
  | groupLookup
  | seagullLookup
  | dbFind
deriving DecidableEq

/-- Embedding of `userCanViewData` (source lines 165-178), instrumented
with the effect trace of the gatekeeper `UserInGroup` call. -/
def userCanViewData (userInGroup : String → String → Except String Permissions)
    (userID groupID : String) : Bool × List Effect :=
  if userID == groupID then (true, [])
  else
    match userInGroup userID groupID with
    | Except.error _ => (false, [Effect.groupLookup])
    | Except.ok perms =>
      (!(!perms.contains "root" && !perms.contains "view"), [Effect.groupLookup])

/-- The authorization condition of the data handler (source line 289):
`td.IsServer || td.UserID == userToView || userCanViewData(...)`, with
Go short-circuit evaluation of `||` made explicit. -/
def authDecision (userInGroup : String → String → Except String Permissions)
    (td : TokenData) (userToView : String) : Bool × List Effect :=
  if td.IsServer then (true, [])
  else if td.UserID == userToView then (true, [])
  else userCanViewData userInGroup td.UserID userToView

/-- `detailedError` (source lines 39-46): `InternalMessage` carries the
json tag `-` and is never serialized. -/
structure detailedError where
  Status : Nat
  Id : String := ""
  Code : String
  Message : String
  InternalMessage : String := ""
deriving DecidableEq

def error_status_check : detailedError :=
  { Status := 500, Code := "data_status_check",
    Message := "checking of the status endpoint showed an error" }

def error_no_view_permisson : detailedError :=
  { Status := 403, Code := "data_cant_view",
    Message := "user is not authorized to view data" }

def error_no_permissons : detailedError :=
  { Status := 500, Code := "data_perms_error",
    Message := "error finding permissons for user" }

def error_running_query : detailedError :=
  { Status := 500, Code := "data_store_error", Message := "internal server error" }

def error_loading_events : detailedError :=
  { Status := 500, Code := "data_marshal_error", Message := "internal server error" }

def error_incorrect_params : detailedError :=
  { Status := 500, Code := "params", Message := "incorrect parameters" }

/-- `detailedError.setInternalMessage` (source lines 64-67). -/
def detailedError.setInternalMessage (d : detailedError) (internal : String) : detailedError :=
  { d with InternalMessage := internal }

/-- `json.Marshal` of a `detailedError`: the struct fields in order,
`InternalMessage` omitted (json tag `-`). -/
def marshalDetailedError (d : detailedError) : String :=
  "\x7b\"status\":" ++ toString d.Status ++ ",\"id\":\"" ++ d.Id ++
    "\",\"code\":\"" ++ d.Code ++ "\",\"message\":\"" ++ d.Message ++ "\"\x7d"

/-- The observable state of a Go `http.ResponseWriter`: transmitted
status, whether the response is committed (first byte sent), the
content-type header, and the body bytes written so far. -/
structure ResponseWriter where
  status : Nat
  committed : Bool
  contentType : Option String
  body : String
deriving DecidableEq

/-- A fresh response: status defaults to 200, nothing sent. -/
def ResponseWriter.init : ResponseWriter :=
  { status := 200, committed := false, contentType := none, body := "" }

/-- `res.Write(bytes)`: commits the response (with the current status)
if not yet committed, and appends to the body. -/
def ResponseWriter.write (r : ResponseWriter) (s : String) : ResponseWriter :=
  { r with committed := true, body := r.body ++ s }

/-- `res.WriteHeader(code)`: sets the transmitted status, but only if
the response is not yet committed; afterwards it is a no-op. -/
def ResponseWriter.writeHeader (r : ResponseWriter) (code : Nat) : ResponseWriter :=
  if r.committed then r else { r with status := code, committed := true }

/-- `res.Header().Add("content-type", v)`: header mutation has an effect
on the wire only before the response is committed. -/
def ResponseWriter.headerAdd (r : ResponseWriter) (v : String) : ResponseWriter :=
  if r.committed then r else { r with contentType := some v }

/-- Embedding of `jsonError` (source lines 181-192): assign a fresh id,
marshal the error, add the content-type header, `Write` the body and
only then call `WriteHeader` with the declared status. -/
def jsonError (res : ResponseWriter) (err : detailedError) (idStr : String) : ResponseWriter :=
  let err := { err with Id := idStr }
  let jsonErr := marshalDetailedError err
  let res := res.headerAdd "application/json"
  (res.write jsonErr).writeHeader err.Status

/-- The record serializer (`json.Marshal` on one record): either the
serialized bytes or an error message. -/
abbrev Marshaller := deviceData → Except String String

/-- The `for iter.Next(&results)` loop of `processResults` (source lines
202-220).  Returns the response state, whether the loop aborted through
the marshal-error early return, and the `found` counter. -/
def processLoop (marshal : Marshaller) (idStr : String) :
    List deviceData → ResponseWriter → Bool → Nat → ResponseWriter × Bool × Nat
  | [], res, _, found => (res, false, found)
  | results :: rest, res, first, found =>
    let found := found + 1
    match marshal results with
    | Except.error e =>
      (jsonError res (error_loading_events.setInternalMessage e) idStr, true, found)
    | Except.ok bytes =>
      let res := if !first then (res.headerAdd "application/json").write "[" else res.write ",\n"
      processLoop marshal idStr rest (res.write bytes) true found

/-- Embedding of `processResults` (source lines 195-231): run the cursor
loop; on a marshal error the loop already wrote the error envelope and
returned; otherwise a cursor-close error is reported through `jsonError`,
and on success the closing `]` is written. -/
def processResults (marshal : Marshaller) (idStr : String) (res : ResponseWriter)
    (iter : List deviceData) (closeErr : Option String) : ResponseWriter :=
  match processLoop marshal idStr iter res false 0 with
  | (res, true, _) => res
  | (res, false, _) =>
    match closeErr with
    | some e => jsonError res (error_running_query.setInternalMessage e) idStr
    | none => res.write "]"

/-- The excluded fields of the mongo projection (source line 316). -/
def removeFieldsForReturn : List String :=
  ["_id", "_groupId", "_version", "_active", "_schemaVersion", "createdTime", "modifiedTime"]

/-- The mongo `Select` projection with the exclusion document above:
drops exactly those fields from a record. -/
def selectExclude (doc : deviceData) : deviceData :=
  doc.filter (fun kv => !(removeFieldsForReturn.contains kv.1))

/-- The caller-supplied inputs of one `GET /:userID` request. -/
structure DataRequest where
  userToView : String
  startDateString : String
  endDateString : String
  objType : String
  objSubType : String
  token : String

/-- The request-scoped environment of the handler: the external
collaborators, the deployment configuration, and the database behaviour
for this request. -/
structure ServerEnv (T : Type) where
  checkToken : String → Option TokenData
  userInGroup : String → String → Except String Permissions
  getPrivatePair : String → Option String
  minSchema : Int
  maxSchema : Int
  parse : String → Option T
  format : T → String
  runQuery : BsonM → List deviceData
  closeErr : Option String
  marshal : Marshaller
  errId : String

/-- Embedding of the `GET /:userID` handler (source lines 275-327):
token check, authorization condition, seagull private-pair lookup,
query construction, then the projected query results streamed through
`processResults`.  The second component is the trace of external calls. -/
def dataHandler {T : Type} (env : ServerEnv T) (req : DataRequest) :
    ResponseWriter × List Effect :=
  let res := ResponseWriter.init
  match env.checkToken req.token with
  | none => (jsonError res error_no_view_permisson env.errId, [])
  | some td =>
    let ad := authDecision env.userInGroup td req.userToView
    if !ad.1 then (jsonError res error_no_view_permisson env.errId, ad.2)
    else
      let effs := ad.2 ++ [Effect.seagullLookup]
      match env.getPrivatePair req.userToView with
      | none => (jsonError res error_no_permissons env.errId, effs)
      | some pairId =>
        let groupId := pairId
        match generateMongoQuery env.parse env.format groupId env.minSchema env.maxSchema
            req.startDateString req.endDateString req.objType req.objSubType with
        | Except.error _ => (jsonError res error_incorrect_params env.errId, effs)
        | Except.ok groupDataQuery =>
          let docs := (env.runQuery groupDataQuery).map selectExclude
          (processResults env.marshal env.errId res docs env.closeErr,
            effs ++ [Effect.dbFind])

/-- The separator discipline of the emitted array: elements joined by
`,` plus a newline, no leading or trailing separator. -/
def joinRecords : List String → String
  | [] => ""
  | [s] => s
  | s :: s₂ :: rest => s ++ ",\n" ++ joinRecords (s₂ :: rest)

/-- One separator-prefixed element per list entry (the shape the loop
appends after the first record). -/
def sepJoin : List String → String
  | [] => ""
  | s :: rest => ",\n" ++ s ++ sepJoin rest

/-! ### Concrete request fixtures used to instantiate the theorems -/

def testReq : DataRequest :=
  { userToView := "u", startDateString := "", endDateString := "", objType := "",
    objSubType := "", token := "t" }

def testReqBadDate : DataRequest :=
  { userToView := "u", startDateString := "not-a-date", endDateString := "", objType := "",
    objSubType := "", token := "t" }

def envInvalidToken : ServerEnv Unit :=
  { checkToken := fun _ => none, userInGroup := fun _ _ => Except.error "e",
    getPrivatePair := fun _ => none, minSchema := 0, maxSchema := 5,
    parse := fun _ => none, format := fun _ => "", runQuery := fun _ => [],
    closeErr := none, marshal := fun _ => Except.ok "", errId := "w8" }

def envBadDate : ServerEnv Unit :=
  { checkToken := fun _ => some { UserID := "u", IsServer := false },
    userInGroup := fun _ _ => Except.error "e",
    getPrivatePair := fun _ => some "g", minSchema := 0, maxSchema := 5,
    parse := fun _ => none, format := fun _ => "", runQuery := fun _ => [],
    closeErr := none, marshal := fun _ => Except.ok "", errId := "w7" }

def envStream : ServerEnv Unit :=
  { checkToken := fun _ => some { UserID := "u", IsServer := false },
    userInGroup := fun _ _ => Except.error "e",
    getPrivatePair := fun _ => some "g", minSchema := 0, maxSchema := 5,
    parse := fun _ => none, format := fun _ => "",
    runQuery := fun _ => [[("time", BVal.vStr "v"), ("_id", BVal.vStr "i")]],
    closeErr := none, marshal := fun _ => Except.ok "R", errId := "w9" }

/-- A record serializer that succeeds only on the single record
`[("a", "x")]`; used to drive the mid-stream serialization failure. -/
def marshalStopsAtSecond : Marshaller := fun d =>
  match d with
  | [("a", BVal.vStr "x")] => Except.ok "\x7b\"a\":\"x\"\x7d"
  | _ => Except.error "boom"

def docsTwo : List deviceData := [[("a", BVal.vStr "x")], [("b", BVal.vStr "y")]]

/-! ### Helper lemmas -/

theorem lookup_append {α β : Type} [BEq α] (k : α) (l₁ l₂ : List (α × β)) :
    (l₁ ++ l₂).lookup k = (l₁.lookup k).or (l₂.lookup k) := by
  induction l₁ with
  | nil => simp [List.lookup]
  | cons a tl ih =>
    obtain ⟨ka, va⟩ := a
    by_cases h : k == ka <;> simp [List.lookup, h, ih]

theorem lookup_append_left {l₁ l₂ : BsonM} {k : String} {v : BVal}
    (h : l₁.lookup k = some v) : (l₁ ++ l₂).lookup k = some v := by
  rw [lookup_append, h]; rfl

theorem lookup_append_none {l₁ l₂ : BsonM} {k : String}
    (h₁ : l₁.lookup k = none) (h₂ : l₂.lookup k = none) :
    (l₁ ++ l₂).lookup k = none := by
  rw [lookup_append, h₁, h₂]; rfl

theorem lookup_append_right {l₁ l₂ : BsonM} {k : String}
    (h₁ : l₁.lookup k = none) : (l₁ ++ l₂).lookup k = l₂.lookup k := by
  rw [lookup_append, h₁]; rfl

theorem normalizeDate_empty {T : Type} (parse : String → Option T) (format : T → String) :
    normalizeDate parse format "" = Except.ok "" := rfl

theorem normalizeDate_of_parse {T : Type} (parse : String → Option T) (format : T → String)
    (s : String) (ts : T) (h : s ≠ "") (hp : parse s = some ts) :
    normalizeDate parse format s = Except.ok (format ts) := by
  unfold normalizeDate; simp [h, hp]

theorem normalizeDate_fail {T : Type} (parse : String → Option T) (format : T → String)
    (s : String) (h : s ≠ "") (hp : parse s = none) :
    normalizeDate parse format s = Except.error s := by
  unfold normalizeDate; simp [h, hp]

theorem append_ite (c : Prop) [Decidable c] (q x : BsonM) :
    (if c then q ++ x else q) = q ++ (if c then x else []) := by
  split <;> simp

theorem append_ite3 (c₁ c₂ c₃ : Prop) [Decidable c₁] [Decidable c₂] [Decidable c₃]
    (q x₁ x₂ x₃ : BsonM) :
    (if c₁ then q ++ x₁ else if c₂ then q ++ x₂ else if c₃ then q ++ x₃ else q)
      = q ++ (if c₁ then x₁ else if c₂ then x₂ else if c₃ then x₃ else []) := by
  split_ifs <;> simp

/-- The query builder, rewritten as the base clauses followed by the
three optional clause blocks, given both dates normalize. -/
theorem generateMongoQuery_shape {T : Type} (parse : String → Option T) (format : T → String)
    (gid : String) (minS maxS : Int) (sd ed t st sd₂ ed₂ : String)
    (hs : normalizeDate parse format sd = Except.ok sd₂)
    (he : normalizeDate parse format ed = Except.ok ed₂) :
    generateMongoQuery parse format gid minS maxS sd ed t st = Except.ok (
      baseQuery gid minS maxS
      ++ (if (goSplitComma t).length > 0 && ((goSplitComma t).headD "" != "") then
            [("type", BVal.vDoc [("$in", BVal.vArr (goSplitComma t))])] else [])
      ++ (if (goSplitComma st).length > 0 && ((goSplitComma st).headD "" != "") then
            [("subType", BVal.vDoc [("$in", BVal.vArr (goSplitComma st))])] else [])
      ++ (if sd₂ != "" && ed₂ != "" then
            [("time", BVal.vDoc [("$gte", BVal.vStr sd₂), ("$lte", BVal.vStr ed₂)])]
          else if sd₂ != "" then [("time", BVal.vDoc [("$gte", BVal.vStr sd₂)])]
          else if ed₂ != "" then [("time", BVal.vDoc [("$lte", BVal.vStr ed₂)])]
          else [])) := by
  unfold generateMongoQuery
  rw [hs, he]
  dsimp only
  rw [append_ite, append_ite, append_ite3]

/-- If a supplied date fails to parse, the query builder aborts. -/
theorem generateMongoQuery_fail {T : Type} (parse : String → Option T) (format : T → String)
    (gid : String) (minS maxS : Int) (sd ed t st : String)
    (h : (sd ≠ "" ∧ parse sd = none) ∨ (ed ≠ "" ∧ parse ed = none)) :
    ∃ e, generateMongoQuery parse format gid minS maxS sd ed t st = Except.error e := by
  unfold generateMongoQuery
  rcases h with ⟨hne, hp⟩ | ⟨hne, hp⟩
  · rw [normalizeDate_fail parse format sd hne hp]
    exact ⟨sd, rfl⟩
  · cases hnd : normalizeDate parse format sd with
    | error e => exact ⟨e, rfl⟩
    | ok sd₂ =>
      rw [normalizeDate_fail parse format ed hne hp]
      exact ⟨ed, rfl⟩

/-- `jsonError` writes the envelope into the body and never changes the
transmitted status: the `Write` commits the response before the
`WriteHeader` call, which is then a no-op. -/
theorem jsonError_eq (res : ResponseWriter) (err : detailedError) (idStr : String) :
    jsonError res err idStr =
      { res with
        contentType := if res.committed then res.contentType else some "application/json",
        committed := true,
        body := res.body ++ marshalDetailedError { err with Id := idStr } } := by
  unfold jsonError ResponseWriter.headerAdd ResponseWriter.write ResponseWriter.writeHeader
  split <;> simp

theorem joinRecords_cons (a : String) (l : List String) :
    joinRecords (a :: l) = a ++ sepJoin l := by
  induction l generalizing a with
  | nil => simp [joinRecords, sepJoin]
  | cons b tl ih => simp [joinRecords, sepJoin, ih, String.append_assoc]

/-- The cursor loop after the first record: when every remaining record
serializes, each is emitted preceded by the `,` + newline separator. -/
theorem processLoop_all_ok (m : Marshaller) (ser : deviceData → String) (idStr : String) :
    ∀ (docs : List deviceData) (res : ResponseWriter) (f : Nat), res.committed = true →
      (∀ d ∈ docs, m d = Except.ok (ser d)) →
      processLoop m idStr docs res true f =
        ({ res with body := res.body ++ sepJoin (docs.map ser) }, false, f + docs.length) := by
  intro docs
  induction docs with
  | nil => intro res f hc _; simp [processLoop, sepJoin]
  | cons d rest ih =>
    intro res f hc hall
    have hd := hall d (by simp)
    have hrest : ∀ x ∈ rest, m x = Except.ok (ser x) := fun x hx => hall x (by simp [hx])
    simp only [processLoop, hd]
    rw [if_neg (by simp)]
    rw [ih ((res.write ",\n").write (ser d)) (f + 1) (by simp [ResponseWriter.write]) hrest]
    simp [ResponseWriter.write, hc, sepJoin, String.append_assoc]
    omega

/-- The full streaming writer on a non-empty, fully serializable cursor
with a clean close: content type set, status 200, and the body is the
bracketed, separator-joined record list. -/
theorem processResults_records (m : Marshaller) (ser : deviceData → String) (idStr : String)
    (d : deviceData) (rest : List deviceData)
    (hall : ∀ x ∈ d :: rest, m x = Except.ok (ser x)) :
    processResults m idStr ResponseWriter.init (d :: rest) none =
      { status := 200, committed := true, contentType := some "application/json",
        body := "[" ++ joinRecords ((d :: rest).map ser) ++ "]" } := by
  have hd := hall d (by simp)
  have hrest : ∀ x ∈ rest, m x = Except.ok (ser x) := fun x hx => hall x (by simp [hx])
  unfold processResults
  simp only [processLoop, hd]
  rw [if_pos (by simp)]
  rw [show (((ResponseWriter.init.headerAdd "application/json").write "[").write (ser d))
      = { status := 200, committed := true, contentType := some "application/json",
          body := "[" ++ ser d } from rfl]
  rw [processLoop_all_ok m ser idStr rest _ 1 rfl hrest]
  simp [ResponseWriter.write, joinRecords_cons, String.append_assoc]

/-- The authorization condition performs at most the gatekeeper lookup. -/
theorem authDecision_effects (f : String → String → Except String Permissions)
    (td : TokenData) (t : String) :
    (authDecision f td t).2 = [] ∨ (authDecision f td t).2 = [Effect.groupLookup] := by
  unfold authDecision userCanViewData
  split_ifs <;> simp
  cases f td.UserID t <;> simp

/-! ### Claim theorems -/

/-- Claim C1 (code bug, evaluation at the failing input): on a cursor
yielding zero records with a clean close, `processResults` commits
status 200 but writes a body of exactly `]` — not the empty array `[]`
the specification requires, because `[` is only written immediately
before a first record that never arrives. -/
theorem claim_C1_empty_cursor :
    (processResults (fun _ => Except.ok "") "id" ResponseWriter.init [] none).body = "]" ∧
    (processResults (fun _ => Except.ok "") "id" ResponseWriter.init [] none).status = 200 ∧
    (processResults (fun _ => Except.ok "") "id" ResponseWriter.init [] none).body ≠ "[]" :=
  ⟨rfl, rfl, by decide⟩

/-- Claim C2 (code bug, evaluation at the failing inputs): when the
second of two records fails to serialize, `processResults` appends the
error envelope to the body and returns without ever writing the closing
`]` (the body's last character is not `]`); the same happens on a
cursor-close failure after all records were emitted.  The committed
status does stay 200 in both cases. -/
theorem claim_C2_failure_leaves_array_open :
    (processResults marshalStopsAtSecond "id1" ResponseWriter.init docsTwo none).body
      = "[\x7b\"a\":\"x\"\x7d" ++
          marshalDetailedError { error_loading_events with Id := "id1", InternalMessage := "boom" } ∧
    (processResults marshalStopsAtSecond "id1" ResponseWriter.init docsTwo none).body.data.getLast?
      ≠ some ']' ∧
    (processResults marshalStopsAtSecond "id1" ResponseWriter.init docsTwo none).status = 200 ∧
    (processResults (fun _ => Except.ok "R") "id2" ResponseWriter.init
        [[("a", BVal.vStr "x")]] (some "oops")).body
      = "[R" ++ marshalDetailedError { error_running_query with Id := "id2", InternalMessage := "oops" } ∧
    (processResults (fun _ => Except.ok "R") "id2" ResponseWriter.init
        [[("a", BVal.vStr "x")]] (some "oops")).body.data.getLast? ≠ some ']' ∧
    (processResults (fun _ => Except.ok "R") "id2" ResponseWriter.init
        [[("a", BVal.vStr "x")]] (some "oops")).status = 200 :=
  ⟨rfl, by decide, rfl, rfl, by decide, rfl⟩

/-- Claim C10: `jsonError` writes the serialized error body before
calling `WriteHeader`, so the transmitted status is whatever it already
was (200 for a fresh response) and is never the `detailedError`'s
declared status when that differs from it. -/
theorem claim_C10_jsonError_status (res : ResponseWriter) (err : detailedError) (idStr : String) :
    (jsonError res err idStr).status = res.status ∧
    (jsonError res err idStr).body = res.body ++ marshalDetailedError { err with Id := idStr } ∧
    (err.Status ≠ res.status → (jsonError res err idStr).status ≠ err.Status) := by
  rw [jsonError_eq]
  exact ⟨rfl, rfl, fun h heq => h heq.symm⟩

theorem claim_C10_witness :
    (jsonError ResponseWriter.init error_no_view_permisson "w").status ≠ 403 :=
  (claim_C10_jsonError_status ResponseWriter.init error_no_view_permisson "w").2.2 (by decide)

/-- Claim C5 (code bug, evaluation): an empty `type` parameter yields no
type clause, and a regular comma list yields the `$in` clause with the
exact split tokens; but the non-empty parameter `",cbg"` (whose first
split token is empty) also yields NO type clause at all, contradicting
the required behaviour that any non-empty comma list produce a
set-membership clause over its split tokens. -/
theorem claim_C5_type_clause_eval :
    generateMongoQuery (fun _ : String => (none : Option Unit)) (fun _ => "") "g" 0 5 "" "" "" ""
      = Except.ok (baseQuery "g" 0 5) ∧
    generateMongoQuery (fun _ : String => (none : Option Unit)) (fun _ => "") "g" 0 5 "" "" "smbg,cbg" ""
      = Except.ok (baseQuery "g" 0 5 ++
          [("type", BVal.vDoc [("$in", BVal.vArr ["smbg", "cbg"])])]) ∧
    goSplitComma ",cbg" = ["", "cbg"] ∧
    (",cbg" : String) ≠ "" ∧
    generateMongoQuery (fun _ : String => (none : Option Unit)) (fun _ => "") "g" 0 5 "" "" ",cbg" ""
      = Except.ok (baseQuery "g" 0 5) ∧
    (baseQuery "g" 0 5).lookup "type" = none :=
  ⟨rfl, rfl, rfl, by decide, rfl, rfl⟩

/-- Claim C3: the authorization decision follows the short-circuiting
cascade: self-access allows without consulting the lookup; a server
token allows regardless of the lookup; otherwise the lookup runs, an
error denies (fail closed), and a returned permission set allows iff
"root" or "view" is present. -/
theorem claim_C3_auth_cascade (f : String → String → Except String Permissions)
    (td : TokenData) (target : String) :
    (td.UserID = target → authDecision f td target = (true, [])) ∧
    (td.IsServer = true → authDecision f td target = (true, [])) ∧
    (td.IsServer = false → td.UserID ≠ target →
      authDecision f td target =
        ((match f td.UserID target with
          | Except.error _ => false
          | Except.ok perms => perms.contains "root" || perms.contains "view"),
         [Effect.groupLookup])) := by
  refine ⟨?_, ?_, ?_⟩
  · intro h
    unfold authDecision userCanViewData
    by_cases hs : td.IsServer <;> simp [hs, h]
  · intro h
    unfold authDecision
    simp [h]
  · intro hs hne
    unfold authDecision userCanViewData
    simp only [hs, Bool.false_eq_true, if_false, beq_iff_eq, hne, if_neg]
    cases hf : f td.UserID target with
    | error e => rfl
    | ok perms => cases hr : perms.contains "root" <;> cases hv : perms.contains "view" <;>
        simp [hr, hv]

theorem claim_C3_witness :
    authDecision (fun _ _ => Except.ok ["view"]) { UserID := "u", IsServer := false } "u"
      = (true, []) ∧
    authDecision (fun _ _ => Except.ok ["upload"]) { UserID := "u", IsServer := false } "v"
      = (false, [Effect.groupLookup]) := by
  constructor
  · exact (claim_C3_auth_cascade (fun _ _ => Except.ok ["view"])
      { UserID := "u", IsServer := false } "u").1 rfl
  · have h := (claim_C3_auth_cascade (fun _ _ => Except.ok ["upload"])
      { UserID := "u", IsServer := false } "v").2.2 rfl (by decide)
    simpa using h

theorem selectExclude_no_admin (doc : deviceData) :
    ∀ kv ∈ selectExclude doc, kv.1 ∉ removeFieldsForReturn := by
  intro kv hkv
  unfold selectExclude at hkv
  rw [List.mem_filter] at hkv
  simpa using hkv.2

/-- Claim C4: whatever the caller-supplied parameters, a successfully
built query contains the exact group-id match, the `active = true`
clause, and the closed inclusive schema-version range from
configuration. -/
theorem claim_C4_mandatory_clauses {T : Type} (parse : String → Option T) (format : T → String)
    (gid : String) (minS maxS : Int) (sd ed t st : String) (q : BsonM)
    (h : generateMongoQuery parse format gid minS maxS sd ed t st = Except.ok q) :
    q.lookup "_groupId" = some (BVal.vStr gid) ∧
    q.lookup "_active" = some (BVal.vBool true) ∧
    q.lookup "_schemaVersion"
      = some (BVal.vDoc [("$gte", BVal.vInt minS), ("$lte", BVal.vInt maxS)]) := by
  cases hsd : normalizeDate parse format sd with
  | error e =>
    unfold generateMongoQuery at h
    rw [hsd] at h
    simp at h
  | ok sd₂ =>
    cases hed : normalizeDate parse format ed with
    | error e =>
      unfold generateMongoQuery at h
      rw [hsd, hed] at h
      simp at h
    | ok ed₂ =>
      rw [generateMongoQuery_shape parse format gid minS maxS sd ed t st sd₂ ed₂ hsd hed] at h
      injection h with h
      subst h
      refine ⟨?_, ?_, ?_⟩ <;>
        exact lookup_append_left (lookup_append_left (lookup_append_left rfl))

theorem claim_C4_witness :
    (baseQuery "g" 0 5).lookup "_groupId" = some (BVal.vStr "g") ∧
    (baseQuery "g" 0 5).lookup "_active" = some (BVal.vBool true) ∧
    (baseQuery "g" 0 5).lookup "_schemaVersion"
      = some (BVal.vDoc [("$gte", BVal.vInt 0), ("$lte", BVal.vInt 5)]) :=
  claim_C4_mandatory_clauses (fun _ : String => (none : Option Unit)) (fun _ => "") "g" 0 5
    "" "" "" "" (baseQuery "g" 0 5) rfl

/-- Claim C6: the `time` clause of a successfully built query has
exactly the shape determined by which parsed bounds are present (closed
range, lower bound, upper bound, or absent), and the inserted values
are the parsed dates re-serialized through the canonical format. -/
theorem claim_C6_time_clause {T : Type} (parse : String → Option T) (format : T → String)
    (gid : String) (minS maxS : Int) (sd ed t st : String)
    (hfmt : ∀ x, format x ≠ "") :
    (∀ ts te q, sd ≠ "" → ed ≠ "" → parse sd = some ts → parse ed = some te →
      generateMongoQuery parse format gid minS maxS sd ed t st = Except.ok q →
      q.lookup "time" = some (BVal.vDoc [("$gte", BVal.vStr (format ts)),
                                         ("$lte", BVal.vStr (format te))])) ∧
    (∀ ts q, sd ≠ "" → ed = "" → parse sd = some ts →
      generateMongoQuery parse format gid minS maxS sd ed t st = Except.ok q →
      q.lookup "time" = some (BVal.vDoc [("$gte", BVal.vStr (format ts))])) ∧
    (∀ te q, sd = "" → ed ≠ "" → parse ed = some te →
      generateMongoQuery parse format gid minS maxS sd ed t st = Except.ok q →
      q.lookup "time" = some (BVal.vDoc [("$lte", BVal.vStr (format te))])) ∧
    (∀ q, sd = "" → ed = "" →
      generateMongoQuery parse format gid minS maxS sd ed t st = Except.ok q →
      q.lookup "time" = none) := by
  refine ⟨?_, ?_, ?_, ?_⟩
  · intro ts te q hsd hed hps hpe h
    rw [generateMongoQuery_shape parse format gid minS maxS sd ed t st (format ts) (format te)
        (normalizeDate_of_parse parse format sd ts hsd hps)
        (normalizeDate_of_parse parse format ed te hed hpe)] at h
    injection h with h
    subst h
    rw [lookup_append_right (lookup_append_none (lookup_append_none
        (show (baseQuery gid minS maxS).lookup "time" = none from rfl)
        (by split <;> rfl)) (by split <;> rfl))]
    rw [if_pos (by simp [hfmt ts, hfmt te])]
    rfl
  · intro ts q hsd hed hps h
    subst hed
    rw [generateMongoQuery_shape parse format gid minS maxS sd "" t st (format ts) ""
        (normalizeDate_of_parse parse format sd ts hsd hps)
        (normalizeDate_empty parse format)] at h
    injection h with h
    subst h
    rw [lookup_append_right (lookup_append_none (lookup_append_none
        (show (baseQuery gid minS maxS).lookup "time" = none from rfl)
        (by split <;> rfl)) (by split <;> rfl))]
    rw [if_neg (by simp), if_pos (by simp [hfmt ts])]
    rfl
  · intro te q hsd hed hpe h
    subst hsd
    rw [generateMongoQuery_shape parse format gid minS maxS "" ed t st "" (format te)
        (normalizeDate_empty parse format)
        (normalizeDate_of_parse parse format ed te hed hpe)] at h
    injection h with h
    subst h
    rw [lookup_append_right (lookup_append_none (lookup_append_none
        (show (baseQuery gid minS maxS).lookup "time" = none from rfl)
        (by split <;> rfl)) (by split <;> rfl))]
    rw [if_neg (by simp), if_neg (by simp), if_pos (by simp [hfmt te])]
    rfl
  · intro q hsd hed h
    subst hsd
    subst hed
    rw [generateMongoQuery_shape parse format gid minS maxS "" "" t st "" ""
        (normalizeDate_empty parse format) (normalizeDate_empty parse format)] at h
    injection h with h
    subst h
    exact lookup_append_none (lookup_append_none (lookup_append_none
      (show (baseQuery gid minS maxS).lookup "time" = none from rfl)
      (by split <;> rfl)) (by split <;> rfl)) (by simp [List.lookup])

theorem claim_C6_witness :
    (baseQuery "g" 0 5
        ++ [("time", BVal.vDoc [("$gte", BVal.vStr "D"), ("$lte", BVal.vStr "D")])]).lookup "time"
      = some (BVal.vDoc [("$gte", BVal.vStr "D"), ("$lte", BVal.vStr "D")]) :=
  by
  have hD : ("D" : String) ≠ "" := by decide
  exact (claim_C6_time_clause (fun _ : String => some ()) (fun _ : Unit => "D") "g" 0 5 "s" "e" "" ""
    (fun _ => hD)).1 () () _ (by decide) (by decide) rfl rfl rfl

/-- Claim C7: an authenticated, authorized request whose start or end
date string fails to parse aborts query construction: the response
carries the parameter-error envelope (code `params`) and the database
query effect never occurs. -/
theorem claim_C7_bad_date_aborts {T : Type} (env : ServerEnv T) (req : DataRequest)
    (td : TokenData) (gid : String)
    (h1 : env.checkToken req.token = some td)
    (h2 : (authDecision env.userInGroup td req.userToView).1 = true)
    (h3 : env.getPrivatePair req.userToView = some gid)
    (hdate : (req.startDateString ≠ "" ∧ env.parse req.startDateString = none) ∨
             (req.endDateString ≠ "" ∧ env.parse req.endDateString = none)) :
    (dataHandler env req).1.body
      = marshalDetailedError { error_incorrect_params with Id := env.errId } ∧
    Effect.dbFind ∉ (dataHandler env req).2 := by
  obtain ⟨e, he⟩ := generateMongoQuery_fail env.parse env.format gid env.minSchema env.maxSchema
    req.startDateString req.endDateString req.objType req.objSubType hdate
  have hda : dataHandler env req
      = (jsonError ResponseWriter.init error_incorrect_params env.errId,
         (authDecision env.userInGroup td req.userToView).2 ++ [Effect.seagullLookup]) := by
    simp [dataHandler, h1, h2, h3, he]
  refine ⟨?_, ?_⟩
  · rw [hda, jsonError_eq]
    simp [ResponseWriter.init]
  · rw [hda]
    rcases authDecision_effects env.userInGroup td req.userToView with h | h <;> rw [h] <;> simp

theorem claim_C7_witness :
    (dataHandler envBadDate testReqBadDate).1.body
      = marshalDetailedError { error_incorrect_params with Id := "w7" } ∧
    Effect.dbFind ∉ (dataHandler envBadDate testReqBadDate).2 :=
  claim_C7_bad_date_aborts envBadDate testReqBadDate { UserID := "u", IsServer := false } "g"
    rfl rfl rfl (Or.inl ⟨by decide, rfl⟩)

/-- Claim C8 (code bug at the status level): with an absent or invalid
session token, no later stage runs (the effect trace is empty, so no
group lookup and no database call), and the only output is the
authorization-error envelope — but because `jsonError` writes the body
before `WriteHeader`, the transmitted status is 200, not the 403 the
claim states. -/
theorem claim_C8_invalid_token {T : Type} (env : ServerEnv T) (req : DataRequest)
    (h : env.checkToken req.token = none) :
    (dataHandler env req).2 = [] ∧
    (dataHandler env req).1.body
      = marshalDetailedError { error_no_view_permisson with Id := env.errId } ∧
    (dataHandler env req).1.status = 200 ∧
    (dataHandler env req).1.status ≠ 403 := by
  have hda : dataHandler env req
      = (jsonError ResponseWriter.init error_no_view_permisson env.errId, []) := by
    unfold dataHandler
    rw [h]
  refine ⟨by rw [hda], ?_, ?_, ?_⟩
  · rw [hda, jsonError_eq]
    simp [ResponseWriter.init]
  · rw [hda, jsonError_eq]
    rfl
  · rw [hda, jsonError_eq]
    simp [ResponseWriter.init]

theorem claim_C8_witness :
    (dataHandler envInvalidToken testReq).2 = [] ∧
    (dataHandler envInvalidToken testReq).1.status = 200 :=
  ⟨(claim_C8_invalid_token envInvalidToken testReq rfl).1,
   (claim_C8_invalid_token envInvalidToken testReq rfl).2.2.1⟩

/-- Claim C9: a fully successful request with at least one matching
record produces a 200 response whose body is the records (after the
projection stripping the internal fields) serialized and joined with
the `,` + newline separator, bracketed, with no leading or trailing
separator; and no projected record contains any internal field. -/
theorem claim_C9_stream_shape {T : Type} (env : ServerEnv T) (req : DataRequest)
    (td : TokenData) (gid : String) (q : BsonM) (ser : deviceData → String)
    (h1 : env.checkToken req.token = some td)
    (h2 : (authDecision env.userInGroup td req.userToView).1 = true)
    (h3 : env.getPrivatePair req.userToView = some gid)
    (h4 : generateMongoQuery env.parse env.format gid env.minSchema env.maxSchema
        req.startDateString req.endDateString req.objType req.objSubType = Except.ok q)
    (h5 : env.closeErr = none)
    (h6 : env.runQuery q ≠ [])
    (h7 : ∀ d ∈ (env.runQuery q).map selectExclude, env.marshal d = Except.ok (ser d)) :
    (dataHandler env req).1.body
      = "[" ++ joinRecords (((env.runQuery q).map selectExclude).map ser) ++ "]" ∧
    (dataHandler env req).1.status = 200 ∧
    ∀ d ∈ (env.runQuery q).map selectExclude, ∀ kv ∈ d, kv.1 ∉ removeFieldsForReturn := by
  have hda : dataHandler env req
      = (processResults env.marshal env.errId ResponseWriter.init
          ((env.runQuery q).map selectExclude) env.closeErr,
        (authDecision env.userInGroup td req.userToView).2
          ++ [Effect.seagullLookup] ++ [Effect.dbFind]) := by
    simp [dataHandler, h1, h2, h3, h4]
  obtain ⟨d, rest, hcons⟩ := List.exists_cons_of_ne_nil
    (show (env.runQuery q).map selectExclude ≠ [] by simpa using h6)
  rw [hcons] at h7
  refine ⟨?_, ?_, ?_⟩
  · rw [hda]
    dsimp only
    rw [h5, hcons, processResults_records env.marshal ser env.errId d rest h7]
  · rw [hda]
    dsimp only
    rw [h5, hcons, processResults_records env.marshal ser env.errId d rest h7]
  · intro x hx
    obtain ⟨orig, horig, hxeq⟩ := List.mem_map.mp hx
    subst hxeq
    exact selectExclude_no_admin orig

theorem claim_C9_witness :
    (dataHandler envStream testReq).1.status = 200 ∧
    (dataHandler envStream testReq).1.body
      = "[" ++ joinRecords ((([[("time", BVal.vStr "v"), ("_id", BVal.vStr "i")]]
          : List deviceData).map selectExclude).map (fun _ => "R")) ++ "]" := by
  have h := claim_C9_stream_shape envStream testReq { UserID := "u", IsServer := false } "g"
    (baseQuery "g" 0 5) (fun _ => "R") rfl rfl rfl rfl rfl (List.cons_ne_nil _ _)
    (fun _ _ => rfl)
  exact ⟨h.2.1, h.1⟩
